import Mathlib

/-!
Shallow embedding of src/download.py, a Flask blueprint that validates
YouTube URLs, resolves quality selectors to yt-dlp format expressions,
runs one download job per background worker, translates yt-dlp progress
callbacks into a shared status table, classifies failures into
user-facing messages, and records a result-file descriptor on success.

Modelling conventions: Python dicts keyed by strings become either
association lists (the static QUALITY_FORMATS literal) or functions to
Option (the two module-level tables); Python string operations are
modelled on lists of characters, with the regex class \w restricted to
its ASCII meaning; the floating point percentage computation
int((downloaded / total) * 100) is modelled exactly over the integers
as downloaded * 100 / total; the yt-dlp engine is a boundary and its
progress events and the resulting directory listing are explicit inputs
of the worker functions that consume them.
-/

namespace YtDl

/-- ASCII model of the Python regex class [\w-]: letters, digits, underscore, dash. -/
def isUrlIdChar (c : Char) : Bool := c.isAlphanum || c == '_' || c == '-'

/-- Bool test that p occurs at the start of s (on character lists). -/
def isPre : List Char → List Char → Bool
  | [], _ => true
  | _ :: _, [] => false
  | a :: as, b :: bs => a == b && isPre as bs

/-- Bool test of the Python substring operator `in`: sub occurs somewhere inside s. -/
def containsSub (sub : List Char) : List Char → Bool
  | [] => isPre sub []
  | c :: rest => isPre sub (c :: rest) || containsSub sub rest

/-- Bool test that suf occurs at the end of s, the Python str.endswith. -/
def endsWith (suf s : List Char) : Bool := isPre suf.reverse s.reverse

def httpsChars : List Char := "https://".data

def httpChars : List Char := "http://".data

def wwwChars : List Char := "www.".data

def mDotChars : List Char := "m.".data

def watchChars : List Char := "youtube.com/watch?v=".data

def embedChars : List Char := "youtube.com/embed/".data

def vPathChars : List Char := "youtube.com/v/".data

def youtuBeChars : List Char := "youtu.be/".data

def shortsChars : List Char := "youtube.com/shorts/".data

/-- Strip p from the front of s when present, else leave s unchanged.
Embeds an optional regex group such as (?:www\.)? ; the deterministic
commit is faithful because in every pattern of the source the literal
that follows the optional group never begins with the group itself. -/
def stripOptPre (p s : List Char) : List Char := if isPre p s then s.drop p.length else s

/-- Embeds the optional scheme group (?:https?://)? of every source pattern:
try https:// first, then http://, else match the empty alternative. -/
def stripScheme (s : List Char) : List Char :=
  if isPre httpsChars s then s.drop httpsChars.length
  else if isPre httpChars s then s.drop httpChars.length
  else s

/-- After the optional groups, every source pattern is a literal followed by
[\w-]+ and is unanchored at the right end (re.match semantics), so it needs
the literal as the next characters and then at least one id character. -/
def litThenId (lit s : List Char) : Bool :=
  isPre lit s &&
    match s.drop lit.length with
    | [] => false
    | c :: _ => isUrlIdChar c

/-- One source pattern: optional scheme, optional subdomain sub, literal lit,
then one or more id characters, anchored at the start only. -/
def matchShape (sub lit : List Char) (s : List Char) : Bool :=
  litThenId lit (stripOptPre sub (stripScheme s))

/-- src/download.py lines 28-42: the URL validator, the disjunction of the six
patterns tried in order by re.match. -/
def is_valid_youtube_url (url : String) : Bool :=
  matchShape wwwChars watchChars url.data ||
  matchShape wwwChars embedChars url.data ||
  matchShape wwwChars vPathChars url.data ||
  matchShape [] youtuBeChars url.data ||
  matchShape wwwChars shortsChars url.data ||
  matchShape mDotChars watchChars url.data

/-- The three alternatives of the optional scheme group. -/
def SchemeAlt : List (List Char) := [httpsChars, httpChars, []]

/-- Modelled from the wording of the spec: a string of one accepted URL shape is an
optional scheme, then an optional subdomain, then the shape literal, then at least
one id character, then arbitrary trailing characters. -/
def ShapeSpec (sub lit s : List Char) : Prop :=
  ∃ pre subp c rest, pre ∈ SchemeAlt ∧ (subp = sub ∨ subp = []) ∧ isUrlIdChar c = true ∧
    s = pre ++ (subp ++ (lit ++ c :: rest))

/-- Modelled from the wording of the spec: the six accepted URL shapes
(watch page, embed, /v/ path, youtu.be short link, shorts, mobile watch). -/
def AcceptedUrlShape (s : List Char) : Prop :=
  ShapeSpec wwwChars watchChars s ∨ ShapeSpec wwwChars embedChars s ∨
  ShapeSpec wwwChars vPathChars s ∨ ShapeSpec [] youtuBeChars s ∨
  ShapeSpec wwwChars shortsChars s ∨ ShapeSpec mDotChars watchChars s

/-- src/download.py lines 19-26: the static quality dict, as an association list. -/
def QUALITY_FORMATS : List (String × String) :=
  [("highest", "best[height<=2160]/best"),
   ("high", "best[height<=1080]/best"),
   ("medium", "best[height<=720]/best"),
   ("low", "best[height<=480]/best"),
   ("audio", "bestaudio[ext=m4a]/bestaudio/best"),
   ("auto", "best[ext=mp4]/best")]

/-- Python dict.get with no default: some value when the key is present. -/
def dictFind (d : List (String × String)) (k : String) : Option String :=
  (d.find? (fun p => p.1 == k)).map (fun p => p.2)

/-- Python dict.get with a default value. -/
def dictGet (d : List (String × String)) (k : String) (dflt : String) : String :=
  (dictFind d k).getD dflt

/-- Python `k in d` on a dict. -/
def dictContains (d : List (String × String)) (k : String) : Bool :=
  (dictFind d k).isSome

/-- src/download.py lines 140-142: the format selector used by download_video.
The indexed accesses QUALITY_FORMATS[auto] and QUALITY_FORMATS[audio] cannot
fail on the static dict, so their modelled default string is unreachable. -/
def resolveFormat (quality : String) (audio_only : Bool) : String :=
  let format_selector := dictGet QUALITY_FORMATS quality (dictGet QUALITY_FORMATS "auto" "")
  if audio_only then dictGet QUALITY_FORMATS "audio" "" else format_selector

/-- A module-level dict keyed by download id, as a function to Option. -/
def Table (α : Type) : Type := String → Option α

/-- Assignment download_status[id] = v. -/
def Table.set {α : Type} (t : Table α) (k : String) (v : α) : Table α :=
  fun q => if q = k then some v else t q

/-- The initial empty module-level dict. -/
def Table.empty {α : Type} : Table α := fun _ => none

/-- One record of the download_status dict. Keys absent from a given
assignment of the dict are modelled as none. -/
structure JobStatus where
  status : String
  progress : Int
  message : String
  speed : Option String := none
  eta : Option String := none
  title : Option String := none
  duration : Option Nat := none
  file_size : Option Nat := none
  quality : Option String := none
deriving DecidableEq

/-- One record of the download_files dict, src/download.py lines 199-206. -/
structure DownloadedFile where
  path : String
  filename : String
  title : String
  size : Nat
  quality : String
  audio_only : Bool
deriving DecidableEq

/-- ASCII model of the whitespace stripped by Python str.strip(). -/
def isPyWhitespaceChar (c : Char) : Bool :=
  c == ' ' || c == '\t' || c == '\n' || c == '\r' || c == '\x0b' || c == '\x0c'

/-- Python str.strip(). -/
def pyStrip (s : String) : String :=
  ⟨((s.data.dropWhile isPyWhitespaceChar).reverse.dropWhile isPyWhitespaceChar).reverse⟩

/-- Outcome of the POST /download handler: either a 4xx rejection before any
job exists, or an accepted request carrying the normalized quality, the echoed
audio_only flag, and the contents of download_status at the moment the worker
thread is started. -/
inductive StartOutcome where
  | rejected (code : Nat) (error : String)
  | accepted (quality : String) (audio_only : Bool)
      (statusTableAtWorkerStart : Table JobStatus)

/-- src/download.py lines 260-298: the POST /download handler. It validates the
URL, normalizes an unknown quality selector to auto, creates the temp dir, and
starts the worker thread. It writes nothing into download_status itself, so the
table visible at worker start is the incoming table unchanged. -/
def start_download (download_status : Table JobStatus) (rawUrl quality : String)
    (audio_only : Bool) : StartOutcome :=
  if pyStrip rawUrl = "" then .rejected 400 "URL is required"
  else if !is_valid_youtube_url (pyStrip rawUrl) then
    .rejected 400 "Invalid YouTube URL. Please provide a valid YouTube video URL."
  else
    .accepted (if dictContains QUALITY_FORMATS quality then quality else "auto")
      audio_only download_status

/-- src/download.py lines 94-100: the first statement of download_video, the
record the worker writes for its id before doing anything else. -/
def workerInitStatus : JobStatus :=
  { status := "downloading", progress := 0, message := "Initializing download...",
    speed := some "", eta := some "" }

/-- The effect of src/download.py lines 94-100 on the download_status table. -/
def workerInit (t : Table JobStatus) (download_id : String) : Table JobStatus :=
  t.set download_id workerInitStatus

/-- One callback dict passed to progress_hook by the engine. Key-present-and-
truthy tests of the source are modelled by Option (none = key absent);
percent is the value int(float(d[percent_str])) when that key is present and
parses, none when the key is absent or parsing fails (both give progress 0). -/
structure ProgressEvent where
  status : String
  downloaded_bytes : Nat := 0
  total_bytes : Option Nat := none
  total_bytes_estimate : Option Nat := none
  percent : Option Int := none
  speed_str : String := ""
  eta_str : String := ""
deriving DecidableEq

/-- src/download.py lines 111-115: the percent-string fallback branch. -/
def progressFromPercentStr (d : ProgressEvent) : Int :=
  match d.percent with
  | some p => p
  | none => 0

/-- src/download.py lines 109-110: the total_bytes_estimate branch, falling
through to the percent string when the estimate is absent or zero. -/
def progressFromEstimate (d : ProgressEvent) : Int :=
  match d.total_bytes_estimate with
  | some t => if t != 0 then ((d.downloaded_bytes * 100) / t : Nat) else progressFromPercentStr d
  | none => progressFromPercentStr d

/-- src/download.py lines 106-115: the progress computed by an in-progress
event, with int((downloaded / total) * 100) modelled exactly as
downloaded * 100 / total. -/
def computeProgress (d : ProgressEvent) : Int :=
  match d.total_bytes with
  | some t => if t != 0 then ((d.downloaded_bytes * 100) / t : Nat) else progressFromEstimate d
  | none => progressFromEstimate d

/-- src/download.py lines 102-134: the effect of one progress_hook call on the
status record of the owning job. An in-progress event merges the capped
progress, message, speed and eta into the record; a finished event pins
progress at 99; any other event kind leaves the record unchanged. -/
def progress_hook (st : JobStatus) (d : ProgressEvent) : JobStatus :=
  if d.status == "downloading" then
    let progress := computeProgress d
    { st with progress := min progress 99,
              message := "Downloading... " ++ toString progress ++ "%",
              speed := some d.speed_str, eta := some d.eta_str }
  else if d.status == "finished" then
    { st with progress := 99, message := "Processing and finalizing...",
              speed := some "", eta := some "" }
  else st

/-- src/download.py lines 226-233: the ordered substring classification of a
worker failure message. -/
def classifyError (msg : String) : String :=
  if containsSub "Remote end closed connection".data msg.data then
    "Connection lost during download. Please try again with a different quality or check your internet connection."
  else if containsSub "HTTP Error 403".data msg.data then
    "Access denied. This video might be restricted or require authentication."
  else if containsSub "Video unavailable".data msg.data then
    "This video is not available for download."
  else if containsSub "Private video".data msg.data then
    "This is a private video and cannot be downloaded."
  else msg

/-- src/download.py lines 235-239: the record written for a failed job; the
whole dict is replaced, so every optional key is absent again. -/
def errorStatus (msg : String) : JobStatus :=
  { status := "error", progress := 0, message := classifyError msg }

/-- src/download.py lines 211-219: the record written for a completed job;
the whole dict is replaced, so speed and eta are absent again. -/
def completedStatus (title : String) (duration : Nat) (file_size : Nat)
    (quality : String) : JobStatus :=
  { status := "completed", progress := 100,
    message := "Download completed successfully!",
    title := some title, duration := some duration,
    file_size := some file_size, quality := some quality }

/-- src/download.py line 196: the tuple of recognized media file extensions. -/
def mediaExtensions : List String := [".mp4", ".mkv", ".webm", ".avi", ".m4a", ".mp3"]

/-- src/download.py line 196: file.endswith on the extension tuple. -/
def isMediaFileName (name : String) : Bool :=
  mediaExtensions.any (fun e => endsWith e.data name.data)

/-- src/download.py lines 193-207: the scan of the output directory, taking the
first listed file with a recognized extension. A directory listing entry is a
pair of the file name and its byte size (os.path.getsize). -/
def find_downloaded_file (listing : List (String × Nat)) : Option (String × Nat) :=
  listing.find? (fun f => isMediaFileName f.1)

/-- src/download.py lines 193-239: the tail of download_video after the engine
call returned, together with the enclosing except handler. On a found media
file it attaches the DownloadedFile record and writes the completed status; on
no match it raises Exception(Downloaded file not found), which the handler
classifies (no substring matches, so the message passes through raw) and
records as an error status with progress 0, leaving download_files untouched. -/
def finalize_download (statusT : Table JobStatus) (filesT : Table DownloadedFile)
    (download_id output_dir title : String) (duration : Nat)
    (quality : String) (audio_only : Bool) (listing : List (String × Nat)) :
    Table JobStatus × Table DownloadedFile :=
  match find_downloaded_file listing with
  | some (name, size) =>
      (statusT.set download_id (completedStatus title duration size quality),
       filesT.set download_id
         { path := output_dir ++ "/" ++ name, filename := name, title := title,
           size := size, quality := quality, audio_only := audio_only })
  | none =>
      (statusT.set download_id (errorStatus "Downloaded file not found"), filesT)

/-- One entry of the engine-reported info[formats] list, src/download.py
lines 62-73. Absent dict keys are modelled as none. -/
structure RawFormat where
  vcodec : Option String := none
  height : Option Nat := none
  format_id : Option String := none
  ext : Option String := none
  filesize : Option Nat := none
  fps : Option Nat := none
deriving DecidableEq

/-- One entry of the quality list built by get_video_info,
src/download.py lines 67-74. -/
structure FormatEntry where
  quality : String
  height : Nat
  format_id : Option String
  ext : String
  filesize : Option Nat
  fps : Option Nat
deriving DecidableEq

/-- src/download.py line 65: the resolution label of a stream height. -/
def qualityLabel (h : Nat) : String := toString h ++ "p"

/-- src/download.py lines 67-74: the quality entry built from one stream. -/
def mkEntry (f : RawFormat) (h : Nat) : FormatEntry :=
  { quality := qualityLabel h, height := h, format_id := f.format_id,
    ext := f.ext.getD "mp4", filesize := f.filesize, fps := f.fps }

/-- Membership in the seen_qualities set, modelled as a list of labels. -/
def seenHas : List String → String → Bool
  | [], _ => false
  | s :: rest, x => x == s || seenHas rest x

/-- src/download.py lines 61-75: the dedup loop over the stream list; seen is
the set of labels already emitted, modelled as a list. A stream contributes
iff its vcodec is not the string none (an absent vcodec passes), its height
key is present and truthy (nonzero), and its label is new. -/
def collectFormats (seen : List String) : List RawFormat → List FormatEntry
  | [] => []
  | f :: rest =>
    match f.height with
    | some h =>
      if f.vcodec != some "none" && h != 0 then
        if seenHas seen (qualityLabel h) then collectFormats seen rest
        else mkEntry f h :: collectFormats (qualityLabel h :: seen) rest
      else collectFormats seen rest
    | none => collectFormats seen rest

/-- Insertion of one entry into a list kept in descending height order. -/
def insertByHeightDesc (e : FormatEntry) : List FormatEntry → List FormatEntry
  | [] => [e]
  | x :: xs => if x.height < e.height then e :: x :: xs else x :: insertByHeightDesc e xs

/-- src/download.py line 78: formats.sort(key height, reverse); the collected
entries carry pairwise distinct heights, so any correct descending sort agrees
with the stable one of the source. -/
def sortByHeightDesc : List FormatEntry → List FormatEntry
  | [] => []
  | x :: xs => insertByHeightDesc x (sortByHeightDesc xs)

/-- src/download.py lines 59-86: the formats list returned by get_video_info
for an engine-reported stream list: dedup by label keeping the first stream
per resolution, sort by height descending, truncate to 10 entries. -/
def get_video_info_formats (streams : List RawFormat) : List FormatEntry :=
  (sortByHeightDesc (collectFormats [] streams)).take 10

/-- Spec-level description of one stream passing the filter of the loop and
producing a given entry. -/
def StreamYields (f : RawFormat) (e : FormatEntry) : Prop :=
  ∃ h, f.height = some h ∧ h ≠ 0 ∧ f.vcodec ≠ some "none" ∧ e = mkEntry f h

/-- Spec-level description of an entry being built from the first encountered
stream of its resolution: some passing stream yields it, and every passing
stream listed earlier has a different resolution label. -/
def FirstOfItsResolution (streams : List RawFormat) (e : FormatEntry) : Prop :=
  ∃ pre f post, streams = pre ++ f :: post ∧ StreamYields f e ∧
    ∀ g ∈ pre, ∀ h, g.height = some h → h ≠ 0 → g.vcodec ≠ some "none" →
      qualityLabel h ≠ e.quality

/-- A concrete in-progress event with ratio 0.5 of an exact total. -/
def evHalf : ProgressEvent := { status := "downloading", downloaded_bytes := 50, total_bytes := some 100 }

/-- A concrete in-progress event with ratio 0.1 of an exact total. -/
def evTenth : ProgressEvent := { status := "downloading", downloaded_bytes := 10, total_bytes := some 100 }

/-- A concrete in-progress event with ratio 0.95 of an exact total. -/
def ev95 : ProgressEvent := { status := "downloading", downloaded_bytes := 95, total_bytes := some 100 }

/-- A concrete finished event. -/
def evFin : ProgressEvent := { status := "finished" }

-- C7

/-- The status record of a job right after the finished event: progress 99. -/
def statusAt99 : JobStatus := progress_hook workerInitStatus evFin

-- C3

/-- A failure message containing both the connection-reset substring and the HTTP 403 substring. -/
def rawMsg403Conn : String :=
  "Remote end closed connection without response: HTTP Error 403: Forbidden"

/-- A concrete engine-reported stream list: an audio-only stream, two 720p video streams and one 1080p video stream. -/
def demoStreams : List RawFormat :=
  [{ vcodec := some "none", height := some 0, format_id := some "140", ext := some "m4a" },
   { vcodec := some "avc1", height := some 720, format_id := some "22", ext := some "mp4",
     fps := some 30 },
   { vcodec := some "vp9", height := some 1080, format_id := some "248", ext := some "webm" },
   { vcodec := some "avc1", height := some 720, format_id := some "136", ext := some "mp4" }]

theorem isPre_append (p t : List Char) : isPre p (p ++ t) = true := by
  induction p with
  | nil => rfl
  | cons a as ih => simp [isPre, ih]

theorem isPre_self_drop {p s : List Char} (h : isPre p s = true) :
    s = p ++ s.drop p.length := by
  induction p generalizing s with
  | nil => simp
  | cons a as ih =>
    cases s with
    | nil => simp [isPre] at h
    | cons b bs =>
      rw [isPre, Bool.and_eq_true, beq_iff_eq] at h
      obtain ⟨rfl, h2⟩ := h
      simp only [List.cons_append, List.length_cons, List.drop_succ_cons]
      exact congrArg (List.cons a) (ih h2)

theorem drop_len_append (p t : List Char) : (p ++ t).drop p.length = t := by
  induction p with
  | nil => simp
  | cons a as ih =>
    simp only [List.cons_append, List.length_cons, List.drop_succ_cons]
    exact ih

theorem stripOptPre_append (p x : List Char) : stripOptPre p (p ++ x) = x := by
  simp [stripOptPre, isPre_append, drop_len_append]

theorem stripOptPre_nil_left (s : List Char) : stripOptPre [] s = s := by
  simp [stripOptPre, isPre]

theorem stripScheme_https (x : List Char) : stripScheme (httpsChars ++ x) = x := by
  simp [stripScheme, isPre_append, drop_len_append]

theorem stripScheme_http (x : List Char) : stripScheme (httpChars ++ x) = x := by
  have h1 : isPre httpsChars (httpChars ++ x) = false := rfl
  simp [stripScheme, h1, isPre_append, drop_len_append]

theorem stripScheme_www (x : List Char) : stripScheme (wwwChars ++ x) = wwwChars ++ x := by
  have h1 : isPre httpsChars (wwwChars ++ x) = false := rfl
  have h2 : isPre httpChars (wwwChars ++ x) = false := rfl
  simp [stripScheme, h1, h2]

theorem stripScheme_mDot (x : List Char) : stripScheme (mDotChars ++ x) = mDotChars ++ x := by
  have h1 : isPre httpsChars (mDotChars ++ x) = false := rfl
  have h2 : isPre httpChars (mDotChars ++ x) = false := rfl
  simp [stripScheme, h1, h2]

theorem stripScheme_watch (x : List Char) : stripScheme (watchChars ++ x) = watchChars ++ x := by
  have h1 : isPre httpsChars (watchChars ++ x) = false := rfl
  have h2 : isPre httpChars (watchChars ++ x) = false := rfl
  simp [stripScheme, h1, h2]

theorem stripScheme_embed (x : List Char) : stripScheme (embedChars ++ x) = embedChars ++ x := by
  have h1 : isPre httpsChars (embedChars ++ x) = false := rfl
  have h2 : isPre httpChars (embedChars ++ x) = false := rfl
  simp [stripScheme, h1, h2]

theorem stripScheme_vPath (x : List Char) : stripScheme (vPathChars ++ x) = vPathChars ++ x := by
  have h1 : isPre httpsChars (vPathChars ++ x) = false := rfl
  have h2 : isPre httpChars (vPathChars ++ x) = false := rfl
  simp [stripScheme, h1, h2]

theorem stripScheme_youtuBe (x : List Char) :
    stripScheme (youtuBeChars ++ x) = youtuBeChars ++ x := by
  have h1 : isPre httpsChars (youtuBeChars ++ x) = false := rfl
  have h2 : isPre httpChars (youtuBeChars ++ x) = false := rfl
  simp [stripScheme, h1, h2]

theorem stripScheme_shorts (x : List Char) :
    stripScheme (shortsChars ++ x) = shortsChars ++ x := by
  have h1 : isPre httpsChars (shortsChars ++ x) = false := rfl
  have h2 : isPre httpChars (shortsChars ++ x) = false := rfl
  simp [stripScheme, h1, h2]

theorem stripOptPre_www_watch (x : List Char) :
    stripOptPre wwwChars (watchChars ++ x) = watchChars ++ x := by
  have h : isPre wwwChars (watchChars ++ x) = false := rfl
  simp [stripOptPre, h]

theorem stripOptPre_www_embed (x : List Char) :
    stripOptPre wwwChars (embedChars ++ x) = embedChars ++ x := by
  have h : isPre wwwChars (embedChars ++ x) = false := rfl
  simp [stripOptPre, h]

theorem stripOptPre_www_vPath (x : List Char) :
    stripOptPre wwwChars (vPathChars ++ x) = vPathChars ++ x := by
  have h : isPre wwwChars (vPathChars ++ x) = false := rfl
  simp [stripOptPre, h]

theorem stripOptPre_www_shorts (x : List Char) :
    stripOptPre wwwChars (shortsChars ++ x) = shortsChars ++ x := by
  have h : isPre wwwChars (shortsChars ++ x) = false := rfl
  simp [stripOptPre, h]

theorem stripOptPre_mDot_watch (x : List Char) :
    stripOptPre mDotChars (watchChars ++ x) = watchChars ++ x := by
  have h : isPre mDotChars (watchChars ++ x) = false := rfl
  simp [stripOptPre, h]

theorem litThenId_append (lit : List Char) (c : Char) (rest : List Char)
    (hc : isUrlIdChar c = true) : litThenId lit (lit ++ c :: rest) = true := by
  simp [litThenId, isPre_append, drop_len_append, hc]

theorem litThenId_extract {lit s : List Char} (h : litThenId lit s = true) :
    ∃ c rest, s = lit ++ c :: rest ∧ isUrlIdChar c = true := by
  rw [litThenId, Bool.and_eq_true] at h
  obtain ⟨h1, h2⟩ := h
  have hs := isPre_self_drop h1
  cases hd : s.drop lit.length with
  | nil =>
    simp only [hd] at h2
    exact absurd h2 Bool.false_ne_true
  | cons c rest =>
    simp only [hd] at h2
    rw [hd] at hs
    exact ⟨c, rest, hs, h2⟩

theorem stripOptPre_cases (p s : List Char) :
    (∃ x, s = p ++ x ∧ stripOptPre p s = x) ∨ stripOptPre p s = s := by
  by_cases h : isPre p s = true
  · exact Or.inl ⟨s.drop p.length, isPre_self_drop h, by simp [stripOptPre, h]⟩
  · exact Or.inr (by simp [stripOptPre, h])

theorem stripScheme_cases (s : List Char) :
    ∃ pre, pre ∈ SchemeAlt ∧ s = pre ++ stripScheme s := by
  by_cases h1 : isPre httpsChars s = true
  · refine ⟨httpsChars, by simp [SchemeAlt], ?_⟩
    rw [stripScheme, if_pos h1]
    exact isPre_self_drop h1
  · by_cases h2 : isPre httpChars s = true
    · refine ⟨httpChars, by simp [SchemeAlt], ?_⟩
      rw [stripScheme, if_neg h1, if_pos h2]
      exact isPre_self_drop h2
    · exact ⟨[], by simp [SchemeAlt], by simp [stripScheme, h1, h2]⟩

theorem matchShape_sound {sub lit s : List Char} (h : matchShape sub lit s = true) :
    ShapeSpec sub lit s := by
  rw [matchShape] at h
  obtain ⟨pre, hpre, hs⟩ := stripScheme_cases s
  rcases stripOptPre_cases sub (stripScheme s) with ⟨x, hx, heq⟩ | heq
  · rw [heq] at h
    obtain ⟨c, rest, hxeq, hc⟩ := litThenId_extract h
    exact ⟨pre, sub, c, rest, hpre, Or.inl rfl, hc, by rw [hs, hx, hxeq]⟩
  · rw [heq] at h
    obtain ⟨c, rest, hxeq, hc⟩ := litThenId_extract h
    refine ⟨pre, [], c, rest, hpre, Or.inr rfl, hc, ?_⟩
    rw [hs, hxeq]
    simp

theorem matchShape_complete {sub lit s : List Char}
    (hA : ∀ x, stripScheme (sub ++ (lit ++ x)) = sub ++ (lit ++ x))
    (hB : ∀ x, stripScheme (lit ++ x) = lit ++ x)
    (hC : ∀ x, stripOptPre sub (lit ++ x) = lit ++ x)
    (hspec : ShapeSpec sub lit s) : matchShape sub lit s = true := by
  obtain ⟨pre, subp, c, rest, hpre, hsubp, hc, hs⟩ := hspec
  subst hs
  rw [matchShape]
  simp only [SchemeAlt, List.mem_cons, List.not_mem_nil, or_false] at hpre
  rcases hsubp with rfl | rfl
  · rcases hpre with rfl | rfl | rfl
    · rw [stripScheme_https, stripOptPre_append]
      exact litThenId_append lit c rest hc
    · rw [stripScheme_http, stripOptPre_append]
      exact litThenId_append lit c rest hc
    · rw [List.nil_append, hA, stripOptPre_append]
      exact litThenId_append lit c rest hc
  · rcases hpre with rfl | rfl | rfl
    · simp only [List.nil_append]
      rw [stripScheme_https, hC]
      exact litThenId_append lit c rest hc
    · simp only [List.nil_append]
      rw [stripScheme_http, hC]
      exact litThenId_append lit c rest hc
    · simp only [List.nil_append]
      rw [hB, hC]
      exact litThenId_append lit c rest hc

theorem matchShape_watch_iff (s : List Char) :
    matchShape wwwChars watchChars s = true ↔ ShapeSpec wwwChars watchChars s :=
  ⟨matchShape_sound,
   matchShape_complete (fun _ => stripScheme_www _) stripScheme_watch stripOptPre_www_watch⟩

theorem matchShape_embed_iff (s : List Char) :
    matchShape wwwChars embedChars s = true ↔ ShapeSpec wwwChars embedChars s :=
  ⟨matchShape_sound,
   matchShape_complete (fun _ => stripScheme_www _) stripScheme_embed stripOptPre_www_embed⟩

theorem matchShape_vPath_iff (s : List Char) :
    matchShape wwwChars vPathChars s = true ↔ ShapeSpec wwwChars vPathChars s :=
  ⟨matchShape_sound,
   matchShape_complete (fun _ => stripScheme_www _) stripScheme_vPath stripOptPre_www_vPath⟩

theorem matchShape_youtuBe_iff (s : List Char) :
    matchShape [] youtuBeChars s = true ↔ ShapeSpec [] youtuBeChars s :=
  ⟨matchShape_sound,
   matchShape_complete (fun x => by simpa using stripScheme_youtuBe x) stripScheme_youtuBe
     (fun _ => stripOptPre_nil_left _)⟩

theorem matchShape_shorts_iff (s : List Char) :
    matchShape wwwChars shortsChars s = true ↔ ShapeSpec wwwChars shortsChars s :=
  ⟨matchShape_sound,
   matchShape_complete (fun _ => stripScheme_www _) stripScheme_shorts stripOptPre_www_shorts⟩

theorem matchShape_mDot_watch_iff (s : List Char) :
    matchShape mDotChars watchChars s = true ↔ ShapeSpec mDotChars watchChars s :=
  ⟨matchShape_sound,
   matchShape_complete (fun _ => stripScheme_mDot _) stripScheme_watch stripOptPre_mDot_watch⟩

theorem is_valid_iff_shape (url : String) :
    is_valid_youtube_url url = true ↔ AcceptedUrlShape url.data := by
  rw [is_valid_youtube_url, AcceptedUrlShape]
  simp only [Bool.or_eq_true, matchShape_watch_iff, matchShape_embed_iff,
    matchShape_vPath_iff, matchShape_youtuBe_iff, matchShape_shorts_iff,
    matchShape_mDot_watch_iff]
  tauto

theorem shapeSpec_append {sub lit s : List Char} (t : List Char)
    (h : ShapeSpec sub lit s) : ShapeSpec sub lit (s ++ t) := by
  obtain ⟨pre, subp, c, rest, hpre, hsubp, hc, rfl⟩ := h
  exact ⟨pre, subp, c, rest ++ t, hpre, hsubp, hc, by simp⟩

theorem data_append_eq (s t : String) : (s ++ t).data = s.data ++ t.data := rfl

theorem mem_collectFormats {e : FormatEntry} :
    ∀ (streams : List RawFormat) (seen : List String),
    e ∈ collectFormats seen streams →
    seenHas seen e.quality = false ∧ FirstOfItsResolution streams e := by
  intro streams
  induction streams with
  | nil => intro seen he; simp [collectFormats] at he
  | cons f rest ih =>
    intro seen he
    simp only [collectFormats] at he
    cases hfh : f.height with
    | none =>
      simp only [hfh] at he
      obtain ⟨hseen, pre, g, post, hsplit, hy, hfirst⟩ := ih seen he
      refine ⟨hseen, f :: pre, g, post, by rw [hsplit]; rfl, hy, ?_⟩
      intro g' hg' h hh1 hh2 hh3
      rcases List.mem_cons.mp hg' with rfl | hg'
      · rw [hfh] at hh1; exact absurd hh1 (by simp)
      · exact hfirst g' hg' h hh1 hh2 hh3
    | some h =>
      simp only [hfh] at he
      by_cases hpass : (f.vcodec != some "none" && h != 0) = true
      · rw [if_pos hpass] at he
        by_cases hsn : seenHas seen (qualityLabel h) = true
        · rw [if_pos hsn] at he
          obtain ⟨hseen, pre, g, post, hsplit, hy, hfirst⟩ := ih seen he
          refine ⟨hseen, f :: pre, g, post, by rw [hsplit]; rfl, hy, ?_⟩
          intro g' hg' h' hh1 hh2 hh3
          rcases List.mem_cons.mp hg' with rfl | hg'
          · rw [hfh] at hh1
            injection hh1 with hh1'
            subst hh1'
            intro hlab
            rw [hlab] at hsn
            rw [hseen] at hsn
            exact Bool.false_ne_true hsn
          · exact hfirst g' hg' h' hh1 hh2 hh3
        · rw [if_neg hsn] at he
          rcases List.mem_cons.mp he with rfl | he
          · constructor
            · simpa [mkEntry] using hsn
            · refine ⟨[], f, rest, rfl, ⟨h, hfh, ?_, ?_, rfl⟩, by simp⟩
              · have := (Bool.and_eq_true _ _).mp hpass
                simpa using this.2
              · have := (Bool.and_eq_true _ _).mp hpass
                simpa using this.1
          · obtain ⟨hseen, pre, g, post, hsplit, hy, hfirst⟩ := ih _ he
            have hcons : (e.quality == qualityLabel h) = false ∧ seenHas seen e.quality = false := by
              simpa [seenHas, Bool.or_eq_false_iff] using hseen
            refine ⟨hcons.2, f :: pre, g, post, by rw [hsplit]; rfl, hy, ?_⟩
            intro g' hg' h' hh1 hh2 hh3
            rcases List.mem_cons.mp hg' with rfl | hg'
            · rw [hfh] at hh1
              injection hh1 with hh1'
              subst hh1'
              intro hlab
              have hne : e.quality ≠ qualityLabel h := by simpa using hcons.1
              exact hne hlab.symm
            · exact hfirst g' hg' h' hh1 hh2 hh3
      · rw [if_neg hpass] at he
        obtain ⟨hseen, pre, g, post, hsplit, hy, hfirst⟩ := ih seen he
        refine ⟨hseen, f :: pre, g, post, by rw [hsplit]; rfl, hy, ?_⟩
        intro g' hg' h' hh1 hh2 hh3
        rcases List.mem_cons.mp hg' with rfl | hg'
        · exfalso
          apply hpass
          rw [hfh] at hh1
          injection hh1 with hh1'
          subst hh1'
          simp [hh2, hh3]
        · exact hfirst g' hg' h' hh1 hh2 hh3

theorem collectFormats_pairwise :
    ∀ (streams : List RawFormat) (seen : List String),
    (collectFormats seen streams).Pairwise (fun a b => a.quality ≠ b.quality) := by
  intro streams
  induction streams with
  | nil => intro seen; simp [collectFormats]
  | cons f rest ih =>
    intro seen
    simp only [collectFormats]
    split
    · rename_i h hfh
      split
      · split
        · exact ih seen
        · rename_i hpass hsn
          refine List.Pairwise.cons ?_ (ih _)
          intro b hb
          have hb' := (mem_collectFormats rest _ hb).1
          have hpair : (b.quality == qualityLabel h) = false ∧ seenHas seen b.quality = false := by
            simpa [seenHas, Bool.or_eq_false_iff] using hb'
          have hne : b.quality ≠ qualityLabel h := by simpa using hpair.1
          intro hq
          exact hne hq.symm
      · exact ih seen
    · exact ih seen

theorem perm_insertByHeightDesc (e : FormatEntry) (l : List FormatEntry) :
    List.Perm (insertByHeightDesc e l) (e :: l) := by
  induction l with
  | nil => rfl
  | cons x xs ih =>
    rw [insertByHeightDesc]
    split
    · rfl
    · exact (ih.cons x).trans (List.Perm.swap e x xs)

theorem perm_sortByHeightDesc (l : List FormatEntry) : List.Perm (sortByHeightDesc l) l := by
  induction l with
  | nil => rfl
  | cons x xs ih => exact (perm_insertByHeightDesc x (sortByHeightDesc xs)).trans (ih.cons x)

theorem pairwise_insertByHeightDesc {e : FormatEntry} {l : List FormatEntry}
    (hl : l.Pairwise (fun a b => b.height ≤ a.height)) :
    (insertByHeightDesc e l).Pairwise (fun a b => b.height ≤ a.height) := by
  induction l with
  | nil => simp [insertByHeightDesc]
  | cons x xs ih =>
    rw [insertByHeightDesc]
    rcases List.pairwise_cons.mp hl with ⟨hx, hxs⟩
    split
    · rename_i hlt
      refine List.pairwise_cons.mpr ⟨?_, hl⟩
      intro b hb
      rcases List.mem_cons.mp hb with rfl | hb
      · exact Nat.le_of_lt hlt
      · exact Nat.le_trans (hx b hb) (Nat.le_of_lt hlt)
    · rename_i hge
      refine List.pairwise_cons.mpr ⟨?_, ih hxs⟩
      intro b hb
      rcases List.mem_cons.mp ((perm_insertByHeightDesc e xs).mem_iff.mp hb) with rfl | hb'
      · exact Nat.le_of_not_lt hge
      · exact hx b hb'

theorem sorted_sortByHeightDesc (l : List FormatEntry) :
    (sortByHeightDesc l).Pairwise (fun a b => b.height ≤ a.height) := by
  induction l with
  | nil => simp [sortByHeightDesc]
  | cons x xs ih => exact pairwise_insertByHeightDesc ih

theorem mem_formats_first {streams : List RawFormat} {e : FormatEntry}
    (he : e ∈ get_video_info_formats streams) : FirstOfItsResolution streams e := by
  have h1 : e ∈ sortByHeightDesc (collectFormats [] streams) :=
    List.take_subset _ _ he
  have h2 : e ∈ collectFormats [] streams :=
    (perm_sortByHeightDesc _).mem_iff.mp h1
  exact (mem_collectFormats streams [] h2).2

/-- C1 counterexample: the POST /download handler accepts a valid request without writing any Job Table entry, so the table visible at worker start is the unchanged empty table and no Pending record exists. -/
theorem C1_counterexample :
    start_download Table.empty "https://www.youtube.com/watch?v=dQw4w9WgXcQ" "auto" false =
      StartOutcome.accepted "auto" false Table.empty ∧
    (Table.empty : Table JobStatus) "8f14e45f-ceea-4677-a1b3-0c379e5b7a47" = none :=
  ⟨rfl, rfl⟩

/-- C1 amended: the request handler writes no status entry before starting the worker (an accepted outcome carries the incoming table unchanged), and the first write of the worker itself gives the job status downloading with progress 0 and the Initializing message. -/
theorem C1_amended (t : Table JobStatus) (rawUrl quality q : String)
    (a b : Bool) (t' : Table JobStatus) (id : String)
    (hacc : start_download t rawUrl quality a = .accepted q b t') :
    t' = t ∧
    workerInit t' id id = some workerInitStatus ∧
    workerInitStatus.status = "downloading" ∧
    workerInitStatus.progress = 0 ∧
    workerInitStatus.message = "Initializing download..." := by
  have ht : t' = t := by
    unfold start_download at hacc
    split at hacc
    · exact absurd hacc (by simp)
    · split at hacc
      · exact absurd hacc (by simp)
      · simp only [StartOutcome.accepted.injEq] at hacc
        exact hacc.2.2.symm
  refine ⟨ht, ?_, rfl, rfl, rfl⟩
  simp [workerInit, Table.set]

/-- Witness for the amended C1 at a concrete accepted request. -/
theorem C1_amended_witness :
    (Table.empty : Table JobStatus) = Table.empty ∧
    workerInit Table.empty "j1" "j1" = some workerInitStatus ∧
    workerInitStatus.status = "downloading" ∧
    workerInitStatus.progress = 0 ∧
    workerInitStatus.message = "Initializing download..." :=
  C1_amended Table.empty "https://youtu.be/abc" "auto" "auto" false false Table.empty "j1" rfl

-- C2

/-- C2 counterexample: in-progress events with ratios 0.5 then 0.1 delivered while the job is Downloading make the recorded progress drop from 50 to 10, so progress is not monotonically non-decreasing over every event sequence. -/
theorem C2_counterexample :
    (progress_hook workerInitStatus evHalf).progress = 50 ∧
    (progress_hook (progress_hook workerInitStatus evHalf) evTenth).progress = 10 ∧
    ¬ ((progress_hook workerInitStatus evHalf).progress ≤
       (progress_hook (progress_hook workerInitStatus evHalf) evTenth).progress) := by
  decide

/-- C2 amended: an in-progress event caps recorded progress at 99, and progress is non-decreasing across two in-progress events whenever their computed percentages are non-decreasing (the hook itself does not enforce monotonicity); a finished event pins progress at 99; progress 100 appears only in the completed record, while the error and initial records carry 0. -/
theorem C2_amended (st : JobStatus) (d1 d2 df : ProgressEvent) (m t : String)
    (dur sz : Nat) (q : String)
    (h1 : d1.status = "downloading") (h2 : d2.status = "downloading")
    (hf : df.status = "finished")
    (hmono : computeProgress d1 ≤ computeProgress d2) :
    (progress_hook st d1).progress ≤ 99 ∧
    (progress_hook st d1).progress ≤ (progress_hook (progress_hook st d1) d2).progress ∧
    (progress_hook st df).progress = 99 ∧
    (errorStatus m).progress = 0 ∧ workerInitStatus.progress = 0 ∧
    (completedStatus t dur sz q).progress = 100 ∧
    (completedStatus t dur sz q).status = "completed" := by
  have e1 : (progress_hook st d1).progress = min (computeProgress d1) 99 := by
    simp [progress_hook, h1]
  have e2 : (progress_hook (progress_hook st d1) d2).progress = min (computeProgress d2) 99 := by
    simp [progress_hook, h2]
  have e3 : (progress_hook st df).progress = 99 := by
    simp [progress_hook, hf]
  refine ⟨?_, ?_, e3, rfl, rfl, rfl, rfl⟩
  · rw [e1]; exact min_le_right _ _
  · rw [e1, e2]; exact min_le_min hmono (le_refl 99)

/-- Witness for the amended C2 on the concrete event sequence with ratios 0.5 and 0.95 followed by a finished event. -/
theorem C2_amended_witness :
    (progress_hook workerInitStatus evHalf).progress ≤ 99 ∧
    (progress_hook workerInitStatus evHalf).progress ≤
      (progress_hook (progress_hook workerInitStatus evHalf) ev95).progress ∧
    (progress_hook workerInitStatus evFin).progress = 99 ∧
    (errorStatus "boom").progress = 0 ∧ workerInitStatus.progress = 0 ∧
    (completedStatus "vid" 10 4242 "auto").progress = 100 ∧
    (completedStatus "vid" 10 4242 "auto").status = "completed" :=
  C2_amended workerInitStatus evHalf ev95 evFin "boom" "vid" 10 4242 "auto" rfl rfl rfl (by decide)

/-- C3 counterexample: when no media file is found the error overwrite records progress 0, not a frozen 99, even though the job sat at 99 after the finished event. -/
theorem C3_counterexample :
    ((finalize_download ((Table.empty : Table JobStatus).set "j1" statusAt99) Table.empty
        "j1" "/tmp/ytdl_x" "vid" 10 "auto" false [("readme.txt", 12)]).1 "j1") =
      some (errorStatus "Downloaded file not found") ∧
    (errorStatus "Downloaded file not found").message = "Downloaded file not found" ∧
    (errorStatus "Downloaded file not found").progress = 0 ∧
    (errorStatus "Downloaded file not found").progress ≠ 99 := by
  refine ⟨?_, by decide, rfl, by decide⟩
  rfl

/-- C3 amended: if the engine call returns but no listed file has a recognized media extension, the worker fails the job fatally with the message Downloaded file not found (which no classification substring matches, so it passes through raw), flips status to error, resets progress to 0, and attaches no result file. -/
theorem C3_amended (statusT : Table JobStatus) (filesT : Table DownloadedFile)
    (id dir title : String) (dur : Nat) (q : String) (a : Bool)
    (listing : List (String × Nat))
    (hnone : find_downloaded_file listing = none) :
    (finalize_download statusT filesT id dir title dur q a listing).1 id =
      some (errorStatus "Downloaded file not found") ∧
    (errorStatus "Downloaded file not found").status = "error" ∧
    (errorStatus "Downloaded file not found").message = "Downloaded file not found" ∧
    (errorStatus "Downloaded file not found").progress = 0 ∧
    (finalize_download statusT filesT id dir title dur q a listing).2 = filesT := by
  refine ⟨?_, rfl, by decide, rfl, ?_⟩
  · simp [finalize_download, hnone, Table.set]
  · simp [finalize_download, hnone]

/-- Witness for the amended C3 on a listing holding only a text file. -/
theorem C3_amended_witness :
    (finalize_download ((Table.empty : Table JobStatus).set "j1" statusAt99) Table.empty
        "j1" "/tmp/ytdl_x" "vid" 10 "auto" false [("readme.txt", 12)]).1 "j1" =
      some (errorStatus "Downloaded file not found") ∧
    (errorStatus "Downloaded file not found").status = "error" ∧
    (errorStatus "Downloaded file not found").message = "Downloaded file not found" ∧
    (errorStatus "Downloaded file not found").progress = 0 ∧
    (finalize_download ((Table.empty : Table JobStatus).set "j1" statusAt99) Table.empty
        "j1" "/tmp/ytdl_x" "vid" 10 "auto" false [("readme.txt", 12)]).2 = Table.empty :=
  C3_amended _ _ "j1" "/tmp/ytdl_x" "vid" 10 "auto" false [("readme.txt", 12)] rfl

-- C5

/-- C4 counterexample: a failure message containing both the connection-reset substring and HTTP Error 403 records the connection-lost sentence, not the access-denied sentence claimed for every message containing HTTP Error 403. -/
theorem C4_counterexample :
    containsSub "HTTP Error 403".data rawMsg403Conn.data = true ∧
    (errorStatus rawMsg403Conn).message ≠
      "Access denied. This video might be restricted or require authentication." ∧
    (errorStatus rawMsg403Conn).message =
      "Connection lost during download. Please try again with a different quality or check your internet connection." := by
  decide

/-- C4 amended: classification follows the elif order of the source: the first matching substring among connection reset, HTTP Error 403, Video unavailable, Private video selects its user-facing sentence, a message matching none passes through raw, and the failed job is recorded with status error and progress 0. -/
theorem C4_amended (msg : String) :
    (errorStatus msg).status = "error" ∧ (errorStatus msg).progress = 0 ∧
    (containsSub "Remote end closed connection".data msg.data = true →
      (errorStatus msg).message =
        "Connection lost during download. Please try again with a different quality or check your internet connection.") ∧
    (containsSub "Remote end closed connection".data msg.data = false →
      containsSub "HTTP Error 403".data msg.data = true →
      (errorStatus msg).message =
        "Access denied. This video might be restricted or require authentication.") ∧
    (containsSub "Remote end closed connection".data msg.data = false →
      containsSub "HTTP Error 403".data msg.data = false →
      containsSub "Video unavailable".data msg.data = true →
      (errorStatus msg).message = "This video is not available for download.") ∧
    (containsSub "Remote end closed connection".data msg.data = false →
      containsSub "HTTP Error 403".data msg.data = false →
      containsSub "Video unavailable".data msg.data = false →
      containsSub "Private video".data msg.data = true →
      (errorStatus msg).message = "This is a private video and cannot be downloaded.") ∧
    (containsSub "Remote end closed connection".data msg.data = false →
      containsSub "HTTP Error 403".data msg.data = false →
      containsSub "Video unavailable".data msg.data = false →
      containsSub "Private video".data msg.data = false →
      (errorStatus msg).message = msg) := by
  unfold errorStatus classifyError
  refine ⟨rfl, rfl, ?_, ?_, ?_, ?_, ?_⟩ <;> intros <;> simp_all

/-- Witness for the amended C4: a plain HTTP Error 403 message records the access-denied sentence. -/
theorem C4_amended_witness :
    (errorStatus "HTTP Error 403: Forbidden").status = "error" ∧
    (errorStatus "HTTP Error 403: Forbidden").progress = 0 ∧
    (errorStatus "HTTP Error 403: Forbidden").message =
      "Access denied. This video might be restricted or require authentication." :=
  ⟨(C4_amended "HTTP Error 403: Forbidden").1,
   (C4_amended "HTTP Error 403: Forbidden").2.1,
   (C4_amended "HTTP Error 403: Forbidden").2.2.2.1 (by decide) (by decide)⟩

/-- C5: on worker success the status record becomes completed with progress 100, the success message, and the file size and quality copied in, and the attached DownloadedFile carries the byte size and name of the found output file. -/
theorem C5_success (statusT : Table JobStatus) (filesT : Table DownloadedFile)
    (id dir title : String) (dur : Nat) (q : String) (a : Bool)
    (listing : List (String × Nat)) (name : String) (size : Nat)
    (hfound : find_downloaded_file listing = some (name, size)) :
    (finalize_download statusT filesT id dir title dur q a listing).1 id =
      some (completedStatus title dur size q) ∧
    (finalize_download statusT filesT id dir title dur q a listing).2 id =
      some { path := dir ++ "/" ++ name, filename := name, title := title,
             size := size, quality := q, audio_only := a } ∧
    (completedStatus title dur size q).status = "completed" ∧
    (completedStatus title dur size q).progress = 100 ∧
    (completedStatus title dur size q).message = "Download completed successfully!" ∧
    (completedStatus title dur size q).file_size = some size ∧
    (completedStatus title dur size q).quality = some q := by
  refine ⟨?_, ?_, rfl, rfl, rfl, rfl, rfl⟩
  · simp [finalize_download, hfound, Table.set]
  · simp [finalize_download, hfound, Table.set]

/-- Witness for C5 on a listing holding one mp4 file of 4242 bytes. -/
theorem C5_success_witness :
    (finalize_download (Table.empty : Table JobStatus) Table.empty
        "j2" "/tmp/ytdl_y" "vid" 10 "auto" false [("video.mp4", 4242)]).1 "j2" =
      some (completedStatus "vid" 10 4242 "auto") ∧
    (finalize_download (Table.empty : Table JobStatus) Table.empty
        "j2" "/tmp/ytdl_y" "vid" 10 "auto" false [("video.mp4", 4242)]).2 "j2" =
      some { path := "/tmp/ytdl_y" ++ "/" ++ "video.mp4", filename := "video.mp4",
             title := "vid", size := 4242, quality := "auto", audio_only := false } ∧
    (completedStatus "vid" 10 4242 "auto").status = "completed" ∧
    (completedStatus "vid" 10 4242 "auto").progress = 100 ∧
    (completedStatus "vid" 10 4242 "auto").message = "Download completed successfully!" ∧
    (completedStatus "vid" 10 4242 "auto").file_size = some 4242 ∧
    (completedStatus "vid" 10 4242 "auto").quality = some "auto" :=
  C5_success _ _ "j2" "/tmp/ytdl_y" "vid" 10 "auto" false [("video.mp4", 4242)] "video.mp4" 4242 rfl

-- C4

/-- C6: the quality list built by get_video_info has pairwise distinct resolution labels, is sorted descending by height, has at most 10 entries, and every entry is built from the first encountered stream of its resolution. -/
theorem C6_quality_list (streams : List RawFormat) :
    (get_video_info_formats streams).Pairwise (fun a b => a.quality ≠ b.quality) ∧
    (get_video_info_formats streams).Pairwise (fun a b => b.height ≤ a.height) ∧
    (get_video_info_formats streams).length ≤ 10 ∧
    ∀ e ∈ get_video_info_formats streams, FirstOfItsResolution streams e := by
  refine ⟨?_, ?_, ?_, fun e he => mem_formats_first he⟩
  · have hs := collectFormats_pairwise streams []
    have hsorted := ((perm_sortByHeightDesc (collectFormats [] streams)).pairwise_iff
      (fun hab => Ne.symm hab)).mpr hs
    exact List.Pairwise.sublist (List.take_sublist _ _) hsorted
  · exact List.Pairwise.sublist (List.take_sublist _ _) (sorted_sortByHeightDesc _)
  · rw [get_video_info_formats, List.length_take]
    exact min_le_left _ _

/-- Witness for C6 on the demo stream list: the 720p entry comes from the first 720p video stream. -/
theorem C6_quality_list_witness :
    (get_video_info_formats demoStreams).length ≤ 10 ∧
    FirstOfItsResolution demoStreams
      { quality := "720p", height := 720, format_id := some "22", ext := "mp4",
        filesize := none, fps := some 30 } :=
  ⟨(C6_quality_list demoStreams).2.2.1,
   (C6_quality_list demoStreams).2.2.2 _ (by decide)⟩

/-- C7: with audio_only true the resolver always yields the audio expression regardless of selector; with audio_only false it yields the static table entry of the selector, and a selector absent from the table yields the same expression as auto. -/
theorem C7_resolveFormat (q : String) :
    resolveFormat q true = "bestaudio[ext=m4a]/bestaudio/best" ∧
    (∀ e, dictFind QUALITY_FORMATS q = some e → resolveFormat q false = e) ∧
    (dictFind QUALITY_FORMATS q = none → resolveFormat q false = resolveFormat "auto" false) := by
  refine ⟨rfl, ?_, ?_⟩
  · intro e he
    simp [resolveFormat, dictGet, he]
  · intro hn
    simp [resolveFormat, dictGet, hn]
    rfl

/-- Witness for C7 at the unknown selector bogus and the known selector low. -/
theorem C7_resolveFormat_witness :
    resolveFormat "bogus" true = "bestaudio[ext=m4a]/bestaudio/best" ∧
    resolveFormat "bogus" false = resolveFormat "auto" false ∧
    resolveFormat "low" false = "best[height<=480]/best" :=
  ⟨(C7_resolveFormat "bogus").1, (C7_resolveFormat "bogus").2.2 rfl,
   (C7_resolveFormat "low").2.1 "best[height<=480]/best" rfl⟩

-- C1

/-- C8: the URL validator is a pure function that returns true exactly on the strings beginning with one of the six accepted URL shapes, hence false on any string matching none of the patterns. -/
theorem C8_url_validator (url : String) :
    is_valid_youtube_url url = true ↔ AcceptedUrlShape url.data :=
  is_valid_iff_shape url

/-- Witness for C8: a concrete watch URL satisfies the accepted shape predicate through the validator. -/
theorem C8_url_validator_witness :
    AcceptedUrlShape "https://www.youtube.com/watch?v=xyz".data :=
  (C8_url_validator "https://www.youtube.com/watch?v=xyz").mp rfl

/-- C9: the patterns are anchored only at the start of the string, so a string extending an accepted URL with arbitrary trailing characters is still accepted. -/
theorem C9_trailing_accepted (url extra : String)
    (h : is_valid_youtube_url url = true) :
    is_valid_youtube_url (url ++ extra) = true := by
  have h1 := (is_valid_iff_shape url).mp h
  refine (is_valid_iff_shape (url ++ extra)).mpr ?_
  rw [AcceptedUrlShape] at h1 ⊢
  rw [data_append_eq]
  rcases h1 with h1 | h1 | h1 | h1 | h1 | h1
  · exact Or.inl (shapeSpec_append _ h1)
  · exact Or.inr (Or.inl (shapeSpec_append _ h1))
  · exact Or.inr (Or.inr (Or.inl (shapeSpec_append _ h1)))
  · exact Or.inr (Or.inr (Or.inr (Or.inl (shapeSpec_append _ h1))))
  · exact Or.inr (Or.inr (Or.inr (Or.inr (Or.inl (shapeSpec_append _ h1)))))
  · exact Or.inr (Or.inr (Or.inr (Or.inr (Or.inr (shapeSpec_append _ h1)))))

/-- Witness for C9: a valid watch URL followed by extra text is accepted. -/
theorem C9_trailing_accepted_witness :
    is_valid_youtube_url ("https://www.youtube.com/watch?v=abc" ++ "&list=PL123 junk") = true :=
  C9_trailing_accepted "https://www.youtube.com/watch?v=abc" "&list=PL123 junk" rfl

/-- C10: every entry of the returned quality list is built from a stream whose vcodec is not the string none and whose height key is present and nonzero, so audio-only streams and streams without a height never contribute an entry. -/
theorem C10_stream_filter (streams : List RawFormat) (e : FormatEntry)
    (he : e ∈ get_video_info_formats streams) :
    ∃ f ∈ streams, f.vcodec ≠ some "none" ∧
      ∃ h, f.height = some h ∧ h ≠ 0 ∧ e = mkEntry f h := by
  obtain ⟨pre, f, post, hsplit, ⟨h, hh, hnz, hvc, he'⟩, _⟩ := mem_formats_first he
  refine ⟨f, ?_, hvc, h, hh, hnz, he'⟩
  rw [hsplit]
  exact List.mem_append_right _ (List.mem_cons_self f post)

/-- Witness for C10 at the 1080p entry of the demo stream list. -/
theorem C10_stream_filter_witness :
    ∃ f ∈ demoStreams, f.vcodec ≠ some "none" ∧
      ∃ h, f.height = some h ∧ h ≠ 0 ∧
        ({ quality := "1080p", height := 1080, format_id := some "248", ext := "webm",
           filesize := none, fps := none } : FormatEntry) = mkEntry f h :=
  C10_stream_filter demoStreams _ (by decide)

end YtDl
